import Mathlib

/-!
Shallow embedding of the Variably Figma-plugin core (src/code.ts, current
revision): the variable-resolution and table-composition pipeline.  Pure
functions of the source are translated to Lean functions; host lookups
(`figma.variables.getVariableByIdAsync`, `getLocalVariablesAsync`) become
lookups in an explicit store (a list of variables); the unbounded alias
recursion of `resolveColorValue` is given an explicit fuel parameter;
JavaScript numbers are modelled as rationals.  All definitions are
executable so that concrete witnesses evaluate by `decide`.
-/

namespace Variably

/-! ### JavaScript-style string helpers (character-level, structural) -/

/-- Characters matched by the JavaScript regex `\s` (ASCII part). -/
def isJsWhitespace (c : Char) : Bool :=
  c == ' ' || c == '\t' || c == '\n' || c == '\r' || c == '\x0b' || c == '\x0c'

/-- Accumulator-passing splitter used to model JavaScript `String.split(sep)`. -/
def splitOnCharAux (sep : Char) : List Char → List Char → List (List Char)
  | [], acc => [acc.reverse]
  | c :: rest, acc =>
    if c == sep then acc.reverse :: splitOnCharAux sep rest []
    else splitOnCharAux sep rest (c :: acc)

/-- JavaScript `s.split(sep)` for a one-character separator. -/
def splitOnChar (sep : Char) (l : List Char) : List (List Char) :=
  splitOnCharAux sep l []

/-- JavaScript `name.split('/')` as a list of strings. -/
def jsSplitSlash (s : String) : List String :=
  (splitOnChar '/' s.data).map String.mk

/-- JavaScript `s.trim()`: strip leading and trailing whitespace. -/
def jsTrim (s : String) : String :=
  String.mk (((s.data.dropWhile isJsWhitespace).reverse.dropWhile isJsWhitespace).reverse)

/-- Decimal digit character for a value below ten. -/
def digitChar (d : Nat) : Char := Char.ofNat (48 + d)

/-- Fuel-driven digit expansion of a natural number, most significant first. -/
def natDigitsAux : Nat → Nat → List Char
  | 0, _ => []
  | fuel + 1, n =>
    if n < 10 then [digitChar n]
    else natDigitsAux fuel (n / 10) ++ [digitChar (n % 10)]

/-- Decimal digit string of a natural number. -/
def natDigits (n : Nat) : List Char := natDigitsAux (n + 1) n

/-- Decimal string of an integer, as JavaScript `Number.prototype.toString` prints
integral values. -/
def intStr (i : ℤ) : String :=
  if i < 0 then String.mk ('-' :: natDigits i.natAbs) else String.mk (natDigits i.natAbs)

/-! ### Data model: variables, values, modes, groups -/

/-- RGBA color object `{r, g, b, a?}`; components are JavaScript numbers,
modelled as rationals. -/
structure RGBA where
  r : ℚ
  g : ℚ
  b : ℚ
  a : Option ℚ
deriving DecidableEq, Repr

/-- Raw stored value of a variable for one mode: an alias marker
`{type: 'VARIABLE_ALIAS', id}`, a direct color object, or a scalar. -/
inductive VarValue where
  | alias (id : String)
  | color (c : RGBA)
  | str (s : String)
  | num (q : ℚ)
  | boolean (b : Bool)
deriving DecidableEq, Repr

/-- Resolved scalar type of a Figma variable. -/
inductive VarType where
  | COLOR
  | NUMBER
  | STRING
  | BOOLEAN
deriving DecidableEq, Repr

/-- Figma variable snapshot: identity, `/`-separated name, owning collection,
resolved type, and the per-mode raw values (`valuesByMode`) as an
insertion-ordered association list, mirroring JavaScript object key order. -/
structure Variable where
  id : String
  name : String
  variableCollectionId : String
  resolvedType : VarType
  valuesByMode : List (String × VarValue)
deriving DecidableEq, Repr

/-- Mode (theme) descriptor `{modeId, name}`. -/
structure ModeInfo where
  modeId : String
  name : String
deriving DecidableEq, Repr

/-- User-selected group descriptor sent by the UI.  The source field named
after the group's name-prefix is called `groupPrefix` here because its
source name is a Lean keyword. -/
structure GroupInfo where
  groupPrefix : String
  count : Nat
  isIndividual : Bool
  variableName : Option String
deriving DecidableEq, Repr

/-- Variable collection descriptor (identity, name, declared modes). -/
structure Collection where
  id : String
  name : String
  modes : List ModeInfo
deriving DecidableEq, Repr

/-- Display-ready value produced by `resolveVariableValue`. -/
inductive DisplayValue where
  | str (s : String)
  | num (q : ℚ)
  | boolean (b : Bool)
  | color (c : RGBA)
deriving DecidableEq, Repr

/-- Host lookup `figma.variables.getVariableByIdAsync(id)` over an explicit
store of local variables. -/
def findById (store : List Variable) (id : String) : Option Variable :=
  store.find? (fun v => v.id == id)

/-! ### Formatting helpers -/

/-- Source `formatVariableName`: replace every `/` with `-`. -/
def formatVariableName (variableName : String) : String :=
  String.mk (variableName.data.map (fun c => if c == '/' then '-' else c))

/-- Collapse runs of whitespace to a single dash, modelling the JavaScript
replacement `.replace(/\s+/g, '-')`; the boolean records whether the previous
character was inside a whitespace run. -/
def collapseWhitespaceAux : List Char → Bool → List Char
  | [], _ => []
  | c :: rest, inRun =>
    if isJsWhitespace c then
      if inRun then collapseWhitespaceAux rest true
      else '-' :: collapseWhitespaceAux rest true
    else c :: collapseWhitespaceAux rest false

/-- Characters kept by `generateDevToken`'s final cleanup (the class
`[a-zA-Z0-9\-_]`). -/
def isTokenChar (c : Char) : Bool :=
  c.isAlpha || c.isDigit || c == '-' || c == '_'

/-- Cleaned middle part of a dev token: slashes to dashes, whitespace runs to
dashes, all other characters outside `[a-zA-Z0-9\-_]` removed. -/
def cleanName (variableName : String) : String :=
  String.mk
    ((collapseWhitespaceAux
        (variableName.data.map (fun c => if c == '/' then '-' else c)) false).filter
      isTokenChar)

/-- Source `generateDevToken`: CSS custom property `var(--<cleaned>)`. -/
def generateDevToken (variableName : String) : String :=
  "var(--" ++ cleanName variableName ++ ")"

/-- JavaScript `Math.round`: round half toward positive infinity, written with
integer arithmetic on the rational's numerator and denominator so that it
evaluates by kernel reduction. -/
def jsRound (q : ℚ) : ℤ := Int.fdiv (2 * q.num + (q.den : ℤ)) (2 * (q.den : ℤ))

/-- Multiplication of a rational by 1000, written through `mkRat` so that it
evaluates by kernel reduction. -/
def ratTimes1000 (q : ℚ) : ℚ := mkRat (1000 * q.num) q.den

/-- Three-digit zero-padded fractional block for a remainder below 1000. -/
def pad3 (fp : Nat) : List Char :=
  [digitChar (fp / 100), digitChar (fp / 10 % 10), digitChar (fp % 10)]

/-- Drop the trailing zero characters of a digit block. -/
def dropTrailingZeros (l : List Char) : List Char :=
  (l.reverse.dropWhile (fun c => c == '0')).reverse

/-- Decimal string of `n / 1000` with the shortest fraction, as JavaScript
`Number.prototype.toString` prints such a value. -/
def decimalString (n : ℤ) : String :=
  let sign := if n < 0 then "-" else ""
  let m := n.natAbs
  let ip := m / 1000
  let fp := m % 1000
  if fp = 0 then sign ++ String.mk (natDigits ip)
  else sign ++ String.mk (natDigits ip) ++ "." ++ String.mk (dropTrailingZeros (pad3 fp))

/-- JavaScript `result.replace(/\.?0+$/, '')`: remove a trailing run of zeros
together with a decimal point that immediately precedes it. -/
def stripTrailingZerosRegex (s : String) : String :=
  let rev := s.data.reverse
  if rev.takeWhile (fun c => c == '0') = [] then s
  else
    let rest := rev.dropWhile (fun c => c == '0')
    match rest with
    | '.' :: r => String.mk r.reverse
    | _ => String.mk rest.reverse

/-- Source `formatNumber`: integers print without a decimal point; other
numbers are rounded to three decimal places (`Math.round(num * 1000) / 1000`),
printed, and stripped of trailing zeros when a decimal point is present. -/
def formatNumber (num : ℚ) : String :=
  if num.den = 1 then intStr num.num
  else
    let rounded := jsRound (ratTimes1000 num)
    let result := decimalString rounded
    if result.data.contains '.' then stripTrailingZerosRegex result else result

/-! ### Validation helpers -/

/-- Source `validateInput` for the `'number'` case.  The dynamic checks
(`typeof value === 'number'`, `!isNaN`, `isFinite`) hold for every rational in
this embedding, so only the shape of the test remains. -/
def validateInputNumber (_q : ℚ) : Bool := true

/-- Source `_isValidColor`: structural and range validation of a color
object; every component must be a number within `[0, 1]`. -/
def isValidColor (color : RGBA) : Bool :=
  if !(validateInputNumber color.r) || !(validateInputNumber color.g)
      || !(validateInputNumber color.b) then false
  else if color.r < 0 || 1 < color.r || color.g < 0 || 1 < color.g
      || color.b < 0 || 1 < color.b then false
  else
    match color.a with
    | none => true
    | some a => if !(validateInputNumber a) then false else !(a < 0 || 1 < a)

/-! ### Value resolution -/

/-- Source `resolveVariableValue`: resolve one raw value for display.  An
absent (`undefined`/`null`) value is the `none` argument; an alias resolves to
the referenced variable's name with slashes rewritten, or to the fixed
"Unknown variable" sentinel when the lookup misses. -/
def resolveVariableValue (store : List Variable) (_variable : Variable)
    (_modeId : String) (value : Option VarValue) : DisplayValue :=
  match value with
  | none => .str ""
  | some (.alias id) =>
    match findById store id with
    | some referencedVariable => .str (formatVariableName referencedVariable.name)
    | none => .str "Unknown variable"
  | some (.color c) => .color c
  | some (.str s) => .str s
  | some (.num q) => .num q
  | some (.boolean b) => .boolean b

/-- Source `resolveColorValue`: recursively resolve a color value.  For an
alias the target's value for the same mode is used, falling back to the
target's first declared mode; a string containing `/` is looked up by name
among color variables; a direct color object is returned unchanged; everything
else yields `none`.  The explicit fuel bounds the recursion that the source
leaves unbounded. -/
def resolveColorValue (store : List Variable) :
    Nat → Variable → String → Option VarValue → Option RGBA
  | 0, _, _, _ => none
  | fuel + 1, _variable, modeId, value =>
    match value with
    | none => none
    | some (.alias id) =>
      match findById store id with
      | some referencedVariable =>
        if referencedVariable.resolvedType = VarType.COLOR then
          let refValue :=
            match List.lookup modeId referencedVariable.valuesByMode with
            | some rv => some rv
            | none =>
              match referencedVariable.valuesByMode.head? with
              | some (firstMode, _) =>
                List.lookup firstMode referencedVariable.valuesByMode
              | none => none
          match refValue with
          | some rv => resolveColorValue store fuel referencedVariable modeId (some rv)
          | none => none
        else none
      | none => none
    | some (.str s) =>
      if s.data.contains '/' then
        match store.find? (fun v => v.name == s && v.resolvedType == VarType.COLOR) with
        | some foundVariable =>
          match List.lookup modeId foundVariable.valuesByMode with
          | some foundValue =>
            resolveColorValue store fuel foundVariable modeId (some foundValue)
          | none =>
            match foundVariable.valuesByMode.head? with
            | some (firstMode, _) =>
              resolveColorValue store fuel foundVariable firstMode
                (List.lookup firstMode foundVariable.valuesByMode)
            | none => none
        | none => none
      else none
    | some (.color c) => some c
    | some (.num _) => none
    | some (.boolean _) => none

/-! ### Variable record building -/

/-- Normalized per-variable record assembled by `processVariableData`.  The
source field holding the Figma variable itself is called `variableRef` here
because its source name is a Lean keyword. -/
structure VariableData where
  name : String
  devToken : String
  variableType : VarType
  values : List (String × DisplayValue)
  variableRef : Variable
  colorValues : Option (List (String × Option RGBA))
  aliasVariables : Option (List (String × Option Variable))
deriving DecidableEq, Repr

/-- Source `processVariableData`: resolve every requested mode, and for COLOR
variables also resolve the actual color and record the alias binding — the
variable itself when the raw value is not an alias marker, otherwise the
directly referenced target of that one alias hop (`null` when the lookup
misses). -/
def processVariableData (store : List Variable) (fuel : Nat) (v : Variable)
    (modes : List ModeInfo) : VariableData :=
  let values := modes.map (fun mode =>
    (mode.modeId,
      resolveVariableValue store v mode.modeId
        (List.lookup mode.modeId v.valuesByMode)))
  let colorValues := modes.map (fun mode =>
    (mode.modeId,
      resolveColorValue store fuel v mode.modeId
        (List.lookup mode.modeId v.valuesByMode)))
  let aliasVariables := modes.map (fun mode =>
    (mode.modeId,
      match List.lookup mode.modeId v.valuesByMode with
      | some (.alias id) => findById store id
      | _ => some v))
  { name := v.name
    devToken := generateDevToken v.name
    variableType := v.resolvedType
    values := values
    variableRef := v
    colorValues := if v.resolvedType = VarType.COLOR then some colorValues else none
    aliasVariables := if v.resolvedType = VarType.COLOR then some aliasVariables else none }

/-! ### Sorting -/

/-- Case-insensitive character key, modelling `localeCompare(..., 'en',
{sensitivity: 'base'})` on the ASCII range. -/
def charKey (c : Char) : Nat := c.toLower.toNat

/-- Three-way comparison of two characters by their case-insensitive key. -/
def charCmp (c d : Char) : Ordering :=
  if charKey c < charKey d then .lt
  else if charKey d < charKey c then .gt
  else .eq

/-- Lexicographic three-way comparison of character lists. -/
def lexCmp : List Char → List Char → Ordering
  | [], [] => .eq
  | [], _ :: _ => .lt
  | _ :: _, [] => .gt
  | c :: cs, d :: ds =>
    match charCmp c d with
    | .eq => lexCmp cs ds
    | o => o

/-- Case-insensitive string comparison used for both sort keys. -/
def ciCompare (a b : String) : Ordering := lexCmp a.data b.data

/-- First `/`-segment of a name as used by the sorter (`parts[0] || ''`). -/
def sortPrefixOf (name : String) : String := (jsSplitSlash name).headI

/-- Comparator of `sortVariablesByPrefixAndName`: case-insensitive comparison
of the first name segment, then of the full name. -/
def sortCompare (a b : VariableData) : Ordering :=
  match ciCompare (sortPrefixOf a.name) (sortPrefixOf b.name) with
  | .eq => ciCompare a.name b.name
  | o => o

/-- Stable insertion of an element into a sorted list: the element passes every
earlier element that compares strictly below it. -/
def insertSorted (x : VariableData) : List VariableData → List VariableData
  | [] => [x]
  | y :: ys => if sortCompare x y = .gt then y :: insertSorted x ys else x :: y :: ys

/-- Source `sortVariablesByPrefixAndName`: stable sort of the records under
`sortCompare` (JavaScript `Array.prototype.sort` is stable). -/
def sortVariablesByPrefixAndName (variablesData : List VariableData) : List VariableData :=
  variablesData.foldr insertSorted []

/-! ### Grouping -/

/-- Grouping key of `groupVariablesByPrefix`:
`variable.name.split('/')[0] || 'other'`. -/
def groupKey (name : String) : String :=
  let first := (jsSplitSlash name).headI
  if first = "" then "other" else first

/-- Append a variable to its group, creating the group at the end on first
use; models JavaScript `Map` insertion-order semantics. -/
def insertIntoGroups (groups : List (String × List VariableData)) (key : String)
    (v : VariableData) : List (String × List VariableData) :=
  match groups with
  | [] => [(key, [v])]
  | (k, vs) :: rest =>
    if k = key then (k, vs ++ [v]) :: rest else (k, vs) :: insertIntoGroups rest key v

/-- Source `groupVariablesByPrefix`: partition the records into an
insertion-ordered map keyed by `groupKey`. -/
def groupVariablesByPrefix (variablesData : List VariableData) :
    List (String × List VariableData) :=
  variablesData.foldl (fun gs v => insertIntoGroups gs (groupKey v.name) v) []

/-! ### Filtering -/

/-- Selection test of `getFilteredVariables`: an individual group matches by
exact variable name, a regular group by the first name segment when the name
has more than one segment with a non-blank first segment. -/
def matchesSelectedGroups (groups : List GroupInfo) (v : Variable) : Bool :=
  let nameParts := jsSplitSlash v.name
  groups.any (fun group =>
    if group.isIndividual then
      match group.variableName with
      | some nm => v.name == nm
      | none => false
    else
      if nameParts.length > 1 && jsTrim nameParts.headI != "" then
        nameParts.headI == group.groupPrefix
      else false)

/-- Source `getFilteredVariables`: restrict the store to the chosen collection
and the user-selected groups; a missing collection or an empty selection is a
thrown error. -/
def getFilteredVariables (collections : List Collection) (store : List Variable)
    (collectionId : String) (groups : List GroupInfo) : Except String (List Variable) :=
  match collections.find? (fun c => c.id == collectionId) with
  | none => .error "Collection not found"
  | some _ =>
    let collectionVariables := store.filter (fun v => v.variableCollectionId == collectionId)
    let filteredVariables := collectionVariables.filter (matchesSelectedGroups groups)
    if filteredVariables.length = 0 then .error "No variables found in selected groups"
    else .ok filteredVariables

/-! ### Table composition: corner rounding and node counting -/

/-- Corner radii of a rendered row frame. -/
structure CornerRadii where
  topLeft : Nat
  topRight : Nat
  bottomLeft : Nat
  bottomRight : Nat
deriving DecidableEq, Repr, Inhabited

/-- Radii section of `TABLE_CONFIG`. -/
structure TableRadiusConfig where
  group : Nat
  header : Nat
deriving Repr

/-- The `radius` part of the source `TABLE_CONFIG` constant. -/
def TABLE_CONFIG_radius : TableRadiusConfig := { group := 16, header := 16 }

/-- Corner radii assigned by `createMainHeaderRow`: only the top corners are
rounded. -/
def createMainHeaderRowCorners : CornerRadii :=
  { topLeft := TABLE_CONFIG_radius.header
    topRight := TABLE_CONFIG_radius.header
    bottomLeft := 0
    bottomRight := 0 }

/-- Corner radii assigned by `createMainDataRow`: only the bottom corners of
the last row of a group are rounded; other rows are unrounded. -/
def createMainDataRowCorners (isLast : Bool) : CornerRadii :=
  if isLast then
    { topLeft := 0
      topRight := 0
      bottomLeft := TABLE_CONFIG_radius.header
      bottomRight := TABLE_CONFIG_radius.header }
  else
    { topLeft := 0, topRight := 0, bottomLeft := 0, bottomRight := 0 }

/-- Rows rendered by `createVariableGroup` for a main-table group of `n`
variables, as their corner radii: the header row followed by one data row per
variable, the data row at index `i` being last when `i = n - 1`. -/
def createVariableGroupRowCorners (n : Nat) : List CornerRadii :=
  createMainHeaderRowCorners ::
    (List.range n).map (fun i => createMainDataRowCorners (decide (i = n - 1)))

/-- Row with a top corner rounding flag set. -/
def hasTopRounding (c : CornerRadii) : Bool :=
  c.topLeft != 0 || c.topRight != 0

/-- Row with a bottom corner rounding flag set. -/
def hasBottomRounding (c : CornerRadii) : Bool :=
  c.bottomLeft != 0 || c.bottomRight != 0

/-- Source `determineColorForIndicator`: pick the swatch color for a cell —
only for COLOR variables, preferring the resolved color, else a direct color
value. -/
def determineColorForIndicator (value : Option DisplayValue) (type : VarType)
    (colorValue : Option RGBA) : Option RGBA :=
  if type ≠ VarType.COLOR then none
  else
    match colorValue with
    | some c => some c
    | none =>
      match value with
      | some (.color c) => some c
      | _ => none

/-- Canvas nodes created by `createHeaderCell`: the base cell frame and one
text node. -/
def createHeaderCellNodeCount : Nat := 2

/-- Canvas nodes created by `createDataCell`: the base cell frame and one text
node. -/
def createDataCellNodeCount : Nat := 2

/-- Canvas nodes created by `createValueCell`: the base cell frame, the color
indicator ellipse when a swatch color exists and swatches are shown, and one
text node. -/
def createValueCellNodeCount (value : Option DisplayValue) (type : VarType)
    (colorValue : Option RGBA) (showSwatches : Bool) : Nat :=
  1 + (if (determineColorForIndicator value type colorValue).isSome && showSwatches
       then 1 else 0) + 1

/-- Canvas nodes created by `createMainHeaderRow`: the row frame, the design
token header cell, and the dev token header cell when it is shown. -/
def createMainHeaderRowNodeCount (showDevToken : Bool) : Nat :=
  1 + createHeaderCellNodeCount + (if showDevToken then createHeaderCellNodeCount else 0)

/-- Canvas nodes created by `createThemeHeaderRow`: the row frame and one
header cell. -/
def createThemeHeaderRowNodeCount : Nat := 1 + createHeaderCellNodeCount

/-- Canvas nodes created by `createMainDataRow`: the row frame, the design
token cell, and the dev token cell when it is shown. -/
def createMainDataRowNodeCount (showDevToken : Bool) : Nat :=
  1 + createDataCellNodeCount + (if showDevToken then createDataCellNodeCount else 0)

/-- Canvas nodes created by `createThemeDataRow`: the value cell's nodes plus
the wrapping container frame. -/
def createThemeDataRowNodeCount (v : VariableData) (mode : ModeInfo)
    (showSwatches : Bool) : Nat :=
  createValueCellNodeCount (List.lookup mode.modeId v.values) v.variableType
    ((List.lookup mode.modeId (v.colorValues.getD [])).join) showSwatches + 1

/-- Canvas nodes created by `createVariableGroup` for the main table: the
group frame, the header row, and one data row per variable. -/
def createMainGroupNodeCount (vars : List VariableData) (showDevToken : Bool) : Nat :=
  1 + createMainHeaderRowNodeCount showDevToken
    + (vars.map (fun _ => createMainDataRowNodeCount showDevToken)).sum

/-- Canvas nodes created by `createVariableGroup` for one theme: the group
frame, the theme header row, and one theme data row per variable. -/
def createThemeGroupNodeCount (vars : List VariableData) (mode : ModeInfo)
    (showSwatches : Bool) : Nat :=
  1 + createThemeHeaderRowNodeCount
    + (vars.map (fun v => createThemeDataRowNodeCount v mode showSwatches)).sum

/-- Canvas nodes created by `createMainVariablesTable`: the stack frame plus
every main group. -/
def createMainVariablesTableNodeCount (grouped : List (String × List VariableData))
    (showDevToken : Bool) : Nat :=
  1 + (grouped.map (fun g => createMainGroupNodeCount g.2 showDevToken)).sum

/-- Canvas nodes created by `createThemeVariablesTables`: one stack frame per
mode plus that mode's groups. -/
def createThemeVariablesTablesNodeCount (grouped : List (String × List VariableData))
    (modes : List ModeInfo) (showSwatches : Bool) : Nat :=
  (modes.map (fun mode =>
    1 + (grouped.map (fun g => createThemeGroupNodeCount g.2 mode showSwatches)).sum)).sum

/-- Canvas nodes created by `createTableFrame`: the root table frame, the main
table stack, and the per-theme stacks, over the grouping of the sorted
records. -/
def createTableFrameNodeCount (variablesData : List VariableData) (modes : List ModeInfo)
    (showDevToken showSwatches : Bool) : Nat :=
  let grouped := groupVariablesByPrefix variablesData
  1 + createMainVariablesTableNodeCount grouped showDevToken
    + createThemeVariablesTablesNodeCount grouped modes showSwatches

/-! ### Table creation pipeline -/

/-- Observable outcome of one `createVariablesTable` run: how many canvas
nodes were created, the error message posted to the UI (if any), and the
notification shown to the user. -/
structure CreateTableOutcome where
  nodesCreated : Nat
  uiError : Option String
  notifyMessage : String
  notifyIsError : Bool
deriving DecidableEq, Repr

/-- Source `createVariablesTable`: filter, process, sort, compose.  A thrown
filtering error is caught before any node is created and surfaced both as an
error notification and as a UI error message; on success the table is built
and a success notification shown. -/
def createVariablesTable (collections : List Collection) (store : List Variable)
    (fuel : Nat) (collectionId : String) (_collectionName : String)
    (modes : List ModeInfo) (groups : List GroupInfo)
    (showDevToken showSwatches : Bool) : CreateTableOutcome :=
  match getFilteredVariables collections store collectionId groups with
  | .error errorMessage =>
    { nodesCreated := 0
      uiError := some errorMessage
      notifyMessage := "❌ Error: " ++ errorMessage
      notifyIsError := true }
  | .ok filteredVariables =>
    let variablesData := filteredVariables.map (fun v => processVariableData store fuel v modes)
    let sortedVariablesData := sortVariablesByPrefixAndName variablesData
    { nodesCreated := createTableFrameNodeCount sortedVariablesData modes showDevToken showSwatches
      uiError := none
      notifyMessage := "✅ Variables table created successfully!"
      notifyIsError := false }

/-! ### Alias chains -/

/-- Well-formed alias chain at mode `m`: the head variable's raw value at `m`
aliases the next variable, each link resolves through the store to a COLOR
variable, and the final variable holds the direct color `c` at `m`. -/
def chainOk (store : List Variable) (m : String) : Variable → List Variable → RGBA → Bool
  | v, [], c => List.lookup m v.valuesByMode == some (VarValue.color c)
  | v, w :: rest, c =>
    (List.lookup m v.valuesByMode == some (VarValue.alias w.id))
      && (findById store w.id == some w)
      && (w.resolvedType == VarType.COLOR)
      && chainOk store m w rest c

/-! ### Concrete fixtures used by witnesses and counterexamples -/

/-- Terminal variable of the demo alias chain: holds a direct red color. -/
def chainVarC : Variable :=
  { id := "C"
    name := "c/terminal"
    variableCollectionId := "col"
    resolvedType := .COLOR
    valuesByMode := [("m", .color ⟨1, 0, 0, some 1⟩)] }

/-- Middle variable of the demo alias chain: aliases `chainVarC`. -/
def chainVarB : Variable :=
  { id := "B"
    name := "b/mid"
    variableCollectionId := "col"
    resolvedType := .COLOR
    valuesByMode := [("m", .alias "C")] }

/-- Head variable of the demo alias chain: aliases `chainVarB`. -/
def chainVarA : Variable :=
  { id := "A"
    name := "a/head"
    variableCollectionId := "col"
    resolvedType := .COLOR
    valuesByMode := [("m", .alias "B")] }

/-- Store holding the demo alias chain A → B → C. -/
def chainStore : List Variable := [chainVarA, chainVarB, chainVarC]

/-- Alias target for the cross-mode fallback demo: it has no value for mode
`m2`, only for its first declared mode `m1`. -/
def fallbackVarB : Variable :=
  { id := "B2"
    name := "b/two"
    variableCollectionId := "col"
    resolvedType := .COLOR
    valuesByMode := [("m1", .color ⟨0, 1, 0, none⟩)] }

/-- Variable whose raw value under mode `m2` aliases `fallbackVarB`. -/
def fallbackVarA : Variable :=
  { id := "A2"
    name := "a/two"
    variableCollectionId := "col"
    resolvedType := .COLOR
    valuesByMode := [("m2", .alias "B2")] }

/-- Store holding the cross-mode fallback demo pair. -/
def fallbackStore : List Variable := [fallbackVarA, fallbackVarB]

/-- Minimal variable record with a given name, for sorter and classifier
witnesses. -/
def namedRecord (nm : String) : VariableData :=
  { name := nm
    devToken := ""
    variableType := .STRING
    values := []
    variableRef := ⟨nm, nm, "", .STRING, []⟩
    colorValues := none
    aliasVariables := none }

/-- One-collection list for the empty-selection witness. -/
def demoCollections : List Collection := [⟨"col", "Demo", [⟨"m", "Mode"⟩]⟩]

/-! ### Supporting lemmas -/

/-- Sanity check: the `mkRat` encoding of the source's `num * 1000` agrees
with rational multiplication. -/
theorem ratTimes1000_eq_mul (q : ℚ) : ratTimes1000 q = q * 1000 := by
  rw [ratTimes1000, Rat.mkRat_eq_div]
  push_cast
  rw [mul_comm (1000 : ℚ) _, div_eq_mul_inv, mul_assoc, mul_comm (1000 : ℚ) _, ← mul_assoc,
    ← div_eq_mul_inv, Rat.num_div_den]

/-- Every character emitted by the digit expansion is a decimal digit below
ten. -/
theorem natDigitsAux_chars (fuel : Nat) :
    ∀ (n : Nat) (c : Char), c ∈ natDigitsAux fuel n → ∃ d, d < 10 ∧ c = digitChar d := by
  induction fuel with
  | zero => intro n c hc; simp [natDigitsAux] at hc
  | succ fuel ih =>
    intro n c hc
    rw [natDigitsAux] at hc
    by_cases hn : n < 10
    · rw [if_pos hn] at hc
      simp at hc
      exact ⟨n, hn, hc⟩
    · rw [if_neg hn] at hc
      rcases List.mem_append.mp hc with hl | hr
      · exact ih (n / 10) c hl
      · simp at hr
        exact ⟨n % 10, Nat.mod_lt _ (by omega), hr⟩

/-- A decimal digit character is never a dot. -/
theorem digitChar_ne_dot (d : Nat) (hd : d < 10) : digitChar d ≠ '.' := by
  interval_cases d <;> decide

/-- The digit string of a natural number contains no dot. -/
theorem dot_not_mem_natDigits (n : Nat) : '.' ∉ natDigits n := by
  intro hmem
  obtain ⟨d, hd, hc⟩ := natDigitsAux_chars (n + 1) n '.' hmem
  exact digitChar_ne_dot d hd hc.symm

/-- The integral decimal string contains no dot. -/
theorem dot_not_mem_intStr (i : ℤ) : '.' ∉ (intStr i).data := by
  intro hmem
  unfold intStr at hmem
  by_cases hi : i < 0
  · rw [if_pos hi] at hmem
    rcases List.mem_cons.mp hmem with h | h
    · exact absurd h (by decide)
    · exact dot_not_mem_natDigits _ h
  · rw [if_neg hi] at hmem
    exact dot_not_mem_natDigits _ hmem

/-- Top rounding flags of a main header row. -/
theorem hasTop_headerRow : hasTopRounding createMainHeaderRowCorners = true := by decide

/-- Bottom rounding flags of a main header row. -/
theorem hasBottom_headerRow : hasBottomRounding createMainHeaderRowCorners = false := by decide

/-- No main data row has a top rounding flag. -/
theorem hasTop_dataRow (b : Bool) : hasTopRounding (createMainDataRowCorners b) = false := by
  cases b <;> decide

/-- A main data row has a bottom rounding flag exactly when it is last. -/
theorem hasBottom_dataRow (b : Bool) : hasBottomRounding (createMainDataRowCorners b) = b := by
  cases b <;> decide

/-! ### Claim theorems -/

/-- C10: `resolveColorValue` returns any direct color object unchanged, with
no range validation of its components: the validator `_isValidColor` rejects
the color `{r := 2, g := -1, b := 5}`, yet the resolver propagates it as a
successfully resolved color. -/
theorem resolveColorValue_no_color_validation :
    (∀ (store : List Variable) (fuel : Nat) (v : Variable) (m : String) (c : RGBA),
        resolveColorValue store (fuel + 1) v m (some (VarValue.color c)) = some c) ∧
    isValidColor ⟨2, -1, 5, none⟩ = false ∧
    resolveColorValue chainStore 1 chainVarA "m" (some (VarValue.color ⟨2, -1, 5, none⟩))
      = some ⟨2, -1, 5, none⟩ := by
  refine ⟨?_, by decide, by decide⟩
  intro store fuel v m c
  simp [resolveColorValue]

/-- C8: `generateDevToken` is a pure function of the name that maps
`color/primary/500` to `var(--color-primary-500)`, preserves letter case, and
keeps only characters from `[A-Za-z0-9_-]` in the cleaned part. -/
theorem generateDevToken_spec :
    generateDevToken "color/primary/500" = "var(--color-primary-500)" ∧
    generateDevToken "Color/Primary" = "var(--Color-Primary)" ∧
    ∀ (nm : String) (c : Char), c ∈ (cleanName nm).data → isTokenChar c = true := by
  refine ⟨by decide, by decide, ?_⟩
  intro nm c hc
  exact List.of_mem_filter hc

/-- C8 witness: the cleaned part of the example token contains the letter `c`
and that letter is in the allowed class. -/
theorem generateDevToken_spec_witness :
    'c' ∈ (cleanName "color/primary/500").data ∧ isTokenChar 'c' = true :=
  ⟨by decide, generateDevToken_spec.2.2 "color/primary/500" 'c' (by decide)⟩

/-- C9: `formatNumber` prints the claimed examples — `2` for the integer two,
`2.1` for 2.1000, `2.123` for 2.12345, `2` for 1.9996 (vanishing fraction) —
and prints every integer without a decimal point. -/
theorem formatNumber_spec :
    formatNumber 2 = "2" ∧
    formatNumber (mkRat 21 10) = "2.1" ∧
    formatNumber (mkRat 212345 100000) = "2.123" ∧
    formatNumber (mkRat 19996 10000) = "2" ∧
    ∀ q : ℚ, q.den = 1 → '.' ∉ (formatNumber q).data := by
  refine ⟨by decide, by decide, by decide, by decide, ?_⟩
  intro q hq
  unfold formatNumber
  rw [if_pos hq]
  exact dot_not_mem_intStr q.num

/-- C9 witness: the integer seven has denominator one and prints without a
decimal point. -/
theorem formatNumber_spec_witness :
    (7 : ℚ).den = 1 ∧ '.' ∉ (formatNumber (7 : ℚ)).data :=
  ⟨by decide, formatNumber_spec.2.2.2.2 7 (by decide)⟩

/-- C3 counterexample: a rendered group of size 1 consists of two rows (the
header and one data row), and no row of it has both a top and a bottom
rounding flag — the claimed single row with both flags does not exist. -/
theorem group_of_one_rounding_counterexample :
    (createVariableGroupRowCorners 1).length = 2 ∧
    (createVariableGroupRowCorners 1).filter
      (fun r => hasTopRounding r && hasBottomRounding r) = [] := by decide

/-- C3 (amended): in every rendered main-table group of `n ≥ 1` variables the
rows are the header followed by `n` data rows; exactly one row (the header,
which is first) carries top rounding, exactly one row (the last data row)
carries bottom rounding, the data rows strictly between them are unrounded,
and no row carries both flags. -/
theorem group_rounding_header_top_last_bottom (n : Nat) (h : 1 ≤ n) :
    (createVariableGroupRowCorners n).length = n + 1 ∧
    (createVariableGroupRowCorners n).countP hasTopRounding = 1 ∧
    (createVariableGroupRowCorners n).countP hasBottomRounding = 1 ∧
    hasTopRounding (createVariableGroupRowCorners n).headI = true ∧
    hasBottomRounding ((createVariableGroupRowCorners n).getLastD ⟨0, 0, 0, 0⟩) = true ∧
    (((createVariableGroupRowCorners n).drop 1).dropLast.all
      (fun r => r == (⟨0, 0, 0, 0⟩ : CornerRadii))) = true ∧
    ((createVariableGroupRowCorners n).all
      (fun r => !(hasTopRounding r && hasBottomRounding r))) = true := by
  obtain ⟨m, rfl⟩ : ∃ m, n = m + 1 := ⟨n - 1, (Nat.succ_pred_eq_of_pos h).symm⟩
  unfold createVariableGroupRowCorners
  simp only [Nat.add_sub_cancel]
  rw [List.range_succ, List.map_append, List.map_singleton]
  have hdm : createMainDataRowCorners (decide (m = m)) = ⟨0, 0, 16, 16⟩ := by
    simp [createMainDataRowCorners, TABLE_CONFIG_radius]
  rw [hdm]
  have hb0 : List.countP hasBottomRounding
      ((List.range m).map (fun i => createMainDataRowCorners (decide (i = m)))) = 0 := by
    rw [List.countP_eq_zero]
    intro r hr
    obtain ⟨i, hi, rfl⟩ := List.mem_map.mp hr
    simp [hasBottom_dataRow, Nat.ne_of_lt (List.mem_range.mp hi)]
  have ht0 : List.countP hasTopRounding
      ((List.range m).map (fun i => createMainDataRowCorners (decide (i = m)))) = 0 := by
    rw [List.countP_eq_zero]
    intro r hr
    obtain ⟨i, hi, rfl⟩ := List.mem_map.mp hr
    simp [hasTop_dataRow]
  refine ⟨?_, ?_, ?_, ?_, ?_, ?_, ?_⟩
  · simp
  · simp [List.countP_cons, List.countP_append, ht0, List.countP_nil, hasTopRounding,
      createMainHeaderRowCorners, TABLE_CONFIG_radius]
  · simp [List.countP_cons, List.countP_append, hb0, List.countP_nil, hasBottomRounding,
      createMainHeaderRowCorners, TABLE_CONFIG_radius]
  · simp [hasTop_headerRow]
  · rw [List.getLastD_cons, List.getLastD_concat]
    decide
  · rw [List.drop_succ_cons, List.drop_zero, List.dropLast_concat, List.all_eq_true]
    intro r hr
    obtain ⟨i, hi, rfl⟩ := List.mem_map.mp hr
    simp [createMainDataRowCorners, Nat.ne_of_lt (List.mem_range.mp hi)]
  · rw [List.all_eq_true]
    intro r hr
    rcases List.mem_cons.mp hr with rfl | hr
    · decide
    · rcases List.mem_append.mp hr with hl | hl
      · obtain ⟨i, hi, rfl⟩ := List.mem_map.mp hl
        simp [hasTop_dataRow]
      · rw [List.mem_singleton.mp hl]
        decide

/-- C3 (amended) witness: the rounding layout of a rendered group of three
variables. -/
theorem group_rounding_header_top_last_bottom_witness :
    (createVariableGroupRowCorners 3).length = 3 + 1 ∧
    (createVariableGroupRowCorners 3).countP hasTopRounding = 1 ∧
    (createVariableGroupRowCorners 3).countP hasBottomRounding = 1 ∧
    hasTopRounding (createVariableGroupRowCorners 3).headI = true ∧
    hasBottomRounding ((createVariableGroupRowCorners 3).getLastD ⟨0, 0, 0, 0⟩) = true ∧
    (((createVariableGroupRowCorners 3).drop 1).dropLast.all
      (fun r => r == (⟨0, 0, 0, 0⟩ : CornerRadii))) = true ∧
    ((createVariableGroupRowCorners 3).all
      (fun r => !(hasTopRounding r && hasBottomRounding r))) = true :=
  group_rounding_header_top_last_bottom 3 (by decide)

/-- C4: when the chosen collection exists but the selected groups match no
variable of it, the whole table creation aborts with the
"No variables found in selected groups" error, surfaced as an error
notification and a UI error message, and no canvas node is created. -/
theorem createVariablesTable_no_variables_abort
    (collections : List Collection) (store : List Variable) (fuel : Nat)
    (collectionId collectionName : String) (modes : List ModeInfo)
    (groups : List GroupInfo) (showDevToken showSwatches : Bool)
    (hcol : (collections.find? (fun c => c.id == collectionId)).isSome = true)
    (hempty : ((store.filter (fun v => v.variableCollectionId == collectionId)).filter
        (matchesSelectedGroups groups)) = []) :
    createVariablesTable collections store fuel collectionId collectionName modes groups
        showDevToken showSwatches =
      ⟨0, some "No variables found in selected groups",
        "❌ Error: No variables found in selected groups", true⟩ := by
  obtain ⟨c, hc⟩ := Option.isSome_iff_exists.mp hcol
  unfold createVariablesTable getFilteredVariables
  rw [hc]
  simp only [hempty, List.length_nil]
  rfl

/-- C4 witness: an empty store matches nothing, so the abort outcome is
produced for the demo collection. -/
theorem createVariablesTable_no_variables_abort_witness :
    ((demoCollections.find? (fun c => c.id == "col")).isSome = true) ∧
    ((([] : List Variable).filter (fun v => v.variableCollectionId == "col")).filter
        (matchesSelectedGroups [⟨"zzz", 0, false, none⟩]) = []) ∧
    createVariablesTable demoCollections [] 3 "col" "Demo" [⟨"m", "Mode"⟩]
        [⟨"zzz", 0, false, none⟩] true true =
      ⟨0, some "No variables found in selected groups",
        "❌ Error: No variables found in selected groups", true⟩ :=
  ⟨by decide, by decide,
    createVariablesTable_no_variables_abort demoCollections [] 3 "col" "Demo"
      [⟨"m", "Mode"⟩] [⟨"zzz", 0, false, none⟩] true true (by decide) (by decide)⟩

/-- A well-formed chain guarantees the head variable has a raw value stored
for the shared mode. -/
theorem chainOk_lookup_isSome (store : List Variable) (m : String) (w : Variable)
    (rest : List Variable) (c : RGBA) (h : chainOk store m w rest c = true) :
    ∃ rv, List.lookup m w.valuesByMode = some rv := by
  cases rest with
  | nil =>
    refine ⟨VarValue.color c, ?_⟩
    simpa [chainOk] using h
  | cons x xs =>
    simp only [chainOk, Bool.and_eq_true, beq_iff_eq] at h
    exact ⟨VarValue.alias x.id, h.1.1.1⟩

/-- Resolving the head of a well-formed alias chain with enough fuel yields
the terminal direct color, whatever the chain's length. -/
theorem resolveColorValue_of_chainOk (store : List Variable) (m : String) :
    ∀ (rest : List Variable) (v : Variable) (c : RGBA) (fuel : Nat),
    chainOk store m v rest c = true → rest.length < fuel →
    resolveColorValue store fuel v m (List.lookup m v.valuesByMode) = some c := by
  intro rest
  induction rest with
  | nil =>
    intro v c fuel hchain hfuel
    obtain ⟨f, rfl⟩ : ∃ f, fuel = f + 1 := ⟨fuel - 1, by omega⟩
    have hlk : List.lookup m v.valuesByMode = some (VarValue.color c) := by
      simpa [chainOk] using hchain
    rw [hlk]
    simp [resolveColorValue]
  | cons w rs ih =>
    intro v c fuel hchain hfuel
    obtain ⟨f, rfl⟩ : ∃ f, fuel = f + 1 := ⟨fuel - 1, by omega⟩
    simp only [chainOk, Bool.and_eq_true, beq_iff_eq] at hchain
    obtain ⟨⟨⟨hlk, hfind⟩, htype⟩, hrest⟩ := hchain
    obtain ⟨rv, hrv⟩ := chainOk_lookup_isSome store m w rs c hrest
    have hrec := ih w c f hrest (by simpa using Nat.lt_of_succ_lt_succ hfuel)
    rw [hrv] at hrec
    rw [hlk]
    simp only [resolveColorValue, hfind, htype, if_true, hrv]
    exact hrec

/-- C1: for an alias chain A → B → … → T at a shared mode, where the terminal
variable T holds a direct color, `resolveColorValue` applied to the head's raw
value returns exactly that terminal color, for chains of arbitrary depth. -/
theorem resolveColorValue_alias_chain (store : List Variable) (m : String)
    (A : Variable) (rest : List Variable) (c : RGBA) (fuel : Nat)
    (_hA : A.resolvedType = VarType.COLOR)
    (hchain : chainOk store m A rest c = true)
    (hfuel : rest.length < fuel) :
    resolveColorValue store fuel A m (List.lookup m A.valuesByMode) = some c :=
  resolveColorValue_of_chainOk store m rest A c fuel hchain hfuel

/-- C1 witness: the concrete chain A → B → C whose terminal holds
`{r:1, g:0, b:0, a:1}` resolves to that color at mode `m`. -/
theorem resolveColorValue_alias_chain_witness :
    chainVarA.resolvedType = VarType.COLOR ∧
    chainOk chainStore "m" chainVarA [chainVarB, chainVarC] ⟨1, 0, 0, some 1⟩ = true ∧
    resolveColorValue chainStore 3 chainVarA "m" (List.lookup "m" chainVarA.valuesByMode)
      = some ⟨1, 0, 0, some 1⟩ :=
  ⟨by decide, by decide,
    resolveColorValue_alias_chain chainStore "m" chainVarA [chainVarB, chainVarC]
      ⟨1, 0, 0, some 1⟩ 3 (by decide) (by decide) (by decide)⟩

/-- C2: when a COLOR variable's raw value under mode `m2` aliases a COLOR
variable B that stores nothing for `m2` but stores `v1` under its first
declared mode `m1`, resolution falls back to `v1` (recursing on it); in
particular a direct color stored under `m1` is returned as the result under
`m2`. -/
theorem resolveColorValue_cross_mode_fallback (store : List Variable) (fuel : Nat)
    (A B : Variable) (m2 m1 : String) (v1 : VarValue) (restB : List (String × VarValue))
    (hfind : findById store B.id = some B)
    (htype : B.resolvedType = VarType.COLOR)
    (hmiss : List.lookup m2 B.valuesByMode = none)
    (hfirst : B.valuesByMode = (m1, v1) :: restB) :
    resolveColorValue store (fuel + 2) A m2 (some (VarValue.alias B.id)) =
      resolveColorValue store (fuel + 1) B m2 (some v1) ∧
    ∀ c : RGBA, v1 = VarValue.color c →
      resolveColorValue store (fuel + 2) A m2 (some (VarValue.alias B.id)) = some c := by
  have hlk1 : List.lookup m1 B.valuesByMode = some v1 := by
    rw [hfirst]
    simp [List.lookup]
  have hstep : resolveColorValue store (fuel + 2) A m2 (some (VarValue.alias B.id)) =
      resolveColorValue store (fuel + 1) B m2 (some v1) := by
    simp only [resolveColorValue, hfind, htype, if_true]
    rw [hmiss, hfirst]
    simp [List.lookup]
  refine ⟨hstep, ?_⟩
  intro c hc
  subst hc
  rw [hstep]
  simp [resolveColorValue]

/-- C2 witness: the concrete pair where B stores green only under its first
mode `m1`, resolved through an alias taken under mode `m2`. -/
theorem resolveColorValue_cross_mode_fallback_witness :
    findById fallbackStore fallbackVarB.id = some fallbackVarB ∧
    fallbackVarB.resolvedType = VarType.COLOR ∧
    List.lookup "m2" fallbackVarB.valuesByMode = none ∧
    fallbackVarB.valuesByMode = ("m1", VarValue.color ⟨0, 1, 0, none⟩) :: [] ∧
    resolveColorValue fallbackStore 2 fallbackVarA "m2"
      (some (VarValue.alias fallbackVarB.id)) = some ⟨0, 1, 0, none⟩ :=
  ⟨by decide, by decide, by decide, by decide,
    (resolveColorValue_cross_mode_fallback fallbackStore 0 fallbackVarA fallbackVarB
      "m2" "m1" (VarValue.color ⟨0, 1, 0, none⟩) [] (by decide) (by decide) (by decide)
      (by decide)).2 ⟨0, 1, 0, none⟩ rfl⟩

/-- Association lists built by mapping a key function over the modes are
looked up pointwise. -/
theorem lookup_map_modeId {β : Type} (f : String → β) :
    ∀ (modes : List ModeInfo) (m : ModeInfo), m ∈ modes →
    List.lookup m.modeId (modes.map (fun mo => (mo.modeId, f mo.modeId)))
      = some (f m.modeId) := by
  intro modes
  induction modes with
  | nil => intro m hm; simp at hm
  | cons mo rest ih =>
    intro m hm
    by_cases he : m.modeId = mo.modeId
    · simp [List.lookup, he]
    · have hm' : m ∈ rest := by
        rcases List.mem_cons.mp hm with rfl | h
        · exact absurd rfl he
        · exact h
      have hbeq : (m.modeId == mo.modeId) = false := beq_eq_false_iff_ne.mpr he
      simp [List.lookup, hbeq, ih m hm']

/-- C5: for a COLOR variable, the record's alias-binding map holds, for every
requested mode, the directly referenced alias target when the raw value for
that mode is an alias marker — one hop only, even when that target is itself
an alias — and the variable itself otherwise; a missed target lookup is
recorded as `none`. -/
theorem processVariableData_aliasBindings_one_hop (store : List Variable) (fuel : Nat)
    (v : Variable) (modes : List ModeInfo) (m : ModeInfo)
    (hcolor : v.resolvedType = VarType.COLOR) (hm : m ∈ modes) :
    ((processVariableData store fuel v modes).aliasVariables.isSome = true) ∧
    (∀ id, List.lookup m.modeId v.valuesByMode = some (VarValue.alias id) →
      List.lookup m.modeId ((processVariableData store fuel v modes).aliasVariables.getD [])
        = some (findById store id)) ∧
    ((∀ id, ¬ List.lookup m.modeId v.valuesByMode = some (VarValue.alias id)) →
      List.lookup m.modeId ((processVariableData store fuel v modes).aliasVariables.getD [])
        = some (some v)) := by
  have hav : (processVariableData store fuel v modes).aliasVariables =
      some (modes.map (fun mode => (mode.modeId,
        match List.lookup mode.modeId v.valuesByMode with
        | some (.alias id) => findById store id
        | _ => some v))) := by
    simp [processVariableData, hcolor]
  have hbase := lookup_map_modeId (fun mid =>
    match List.lookup mid v.valuesByMode with
    | some (.alias id) => findById store id
    | _ => some v) modes m hm
  refine ⟨by rw [hav]; rfl, ?_, ?_⟩
  · intro id hid
    rw [hav, Option.getD_some, hbase]
    simp [hid]
  · intro hnot
    rw [hav, Option.getD_some, hbase]
    rcases hlk : List.lookup m.modeId v.valuesByMode with _ | rv
    · simp [hlk]
    · rcases rv with id | c | s | q | b
      · exact absurd hlk (hnot id)
      · simp [hlk]
      · simp [hlk]
      · simp [hlk]
      · simp [hlk]

/-- C5 witness: the head of the concrete two-hop chain binds the middle
variable `chainVarB` (the direct target), not the chain terminal. -/
theorem processVariableData_aliasBindings_one_hop_witness :
    chainVarA.resolvedType = VarType.COLOR ∧
    (⟨"m", "Mode"⟩ : ModeInfo) ∈ [(⟨"m", "Mode"⟩ : ModeInfo)] ∧
    List.lookup "m" chainVarA.valuesByMode = some (VarValue.alias "B") ∧
    List.lookup "m"
      ((processVariableData chainStore 3 chainVarA [⟨"m", "Mode"⟩]).aliasVariables.getD [])
      = some (findById chainStore "B") :=
  ⟨by decide, by decide, by decide,
    (processVariableData_aliasBindings_one_hop chainStore 3 chainVarA [⟨"m", "Mode"⟩]
      ⟨"m", "Mode"⟩ (by decide) (by decide)).2.1 "B" (by decide)⟩

/-- Inserting a record into the grouped map appends exactly that record to the
flattened members, up to permutation. -/
theorem flatten_insertIntoGroups (gs : List (String × List VariableData)) (key : String)
    (v : VariableData) :
    (((insertIntoGroups gs key v).map Prod.snd).flatten).Perm
      (((gs.map Prod.snd).flatten) ++ [v]) := by
  induction gs with
  | nil => simp [insertIntoGroups]
  | cons g rest ih =>
    obtain ⟨k, vs⟩ := g
    by_cases hk : k = key
    · simp only [insertIntoGroups, if_pos hk, List.map_cons, List.flatten_cons]
      rw [List.append_assoc, List.append_assoc]
      exact List.Perm.append_left vs List.perm_append_comm
    · simp only [insertIntoGroups, if_neg hk, List.map_cons, List.flatten_cons]
      rw [List.append_assoc]
      exact List.Perm.append_left vs ih

/-- Folding the classifier over a record list appends the records to the
flattened members, up to permutation. -/
theorem flatten_groupFold (l : List VariableData) :
    ∀ gs : List (String × List VariableData),
    (((l.foldl (fun gs v => insertIntoGroups gs (groupKey v.name) v) gs).map
        Prod.snd).flatten).Perm (((gs.map Prod.snd).flatten) ++ l) := by
  induction l with
  | nil => intro gs; simp
  | cons v rest ih =>
    intro gs
    simp only [List.foldl_cons]
    refine (ih (insertIntoGroups gs (groupKey v.name) v)).trans ?_
    refine ((flatten_insertIntoGroups gs (groupKey v.name) v).append_right rest).trans ?_
    rw [List.append_assoc, List.singleton_append]

/-- Insertion preserves the invariant that every member of a group carries
that group's key. -/
theorem insertIntoGroups_keys (gs : List (String × List VariableData)) (key : String)
    (v : VariableData) (hv : groupKey v.name = key)
    (hgs : ∀ k vs, (k, vs) ∈ gs → ∀ u ∈ vs, groupKey u.name = k) :
    ∀ k vs, (k, vs) ∈ insertIntoGroups gs key v → ∀ u ∈ vs, groupKey u.name = k := by
  induction gs with
  | nil =>
    intro k vs hmem u hu
    simp only [insertIntoGroups, List.mem_singleton, Prod.mk.injEq] at hmem
    obtain ⟨rfl, rfl⟩ := hmem
    rw [List.mem_singleton.mp hu]
    exact hv
  | cons g rest ih =>
    obtain ⟨k0, vs0⟩ := g
    have hgs0 : ∀ u ∈ vs0, groupKey u.name = k0 := hgs k0 vs0 (List.mem_cons_self _ _)
    have hgsr : ∀ k vs, (k, vs) ∈ rest → ∀ u ∈ vs, groupKey u.name = k :=
      fun k vs h => hgs k vs (List.mem_cons_of_mem _ h)
    intro k vs hmem u hu
    by_cases hk : k0 = key
    · rw [insertIntoGroups, if_pos hk] at hmem
      rcases List.mem_cons.mp hmem with heq | hmem'
      · obtain ⟨rfl, rfl⟩ := Prod.mk.injEq .. |>.mp heq
        rcases List.mem_append.mp hu with h | h
        · exact hgs0 u h
        · rw [List.mem_singleton.mp h, hv, hk]
      · exact hgsr k vs hmem' u hu
    · rw [insertIntoGroups, if_neg hk] at hmem
      rcases List.mem_cons.mp hmem with heq | hmem'
      · obtain ⟨rfl, rfl⟩ := Prod.mk.injEq .. |>.mp heq
        exact hgs0 u hu
      · exact ih hgsr k vs hmem' u hu

/-- C6: grouping by name-prefix is a partition — flattening all group member
lists gives back exactly the input records (up to order, each exactly once),
and every record sits in the group keyed by its own grouping key (the part of
the name before the first `/`, or the `other` bucket when that part is
empty). -/
theorem groupVariablesByPrefix_partition (l : List VariableData) :
    ((((groupVariablesByPrefix l).map Prod.snd).flatten).Perm l) ∧
    (∀ k vs, (k, vs) ∈ groupVariablesByPrefix l → ∀ u ∈ vs, groupKey u.name = k) := by
  constructor
  · simpa [groupVariablesByPrefix] using flatten_groupFold l []
  · have main : ∀ (ll : List VariableData) (gs : List (String × List VariableData)),
        (∀ k vs, (k, vs) ∈ gs → ∀ u ∈ vs, groupKey u.name = k) →
        ∀ k vs, (k, vs) ∈ ll.foldl (fun gs v => insertIntoGroups gs (groupKey v.name) v) gs →
        ∀ u ∈ vs, groupKey u.name = k := by
      intro ll
      induction ll with
      | nil => intro gs hgs; simpa using hgs
      | cons v rest ih =>
        intro gs hgs
        simp only [List.foldl_cons]
        exact ih _ (insertIntoGroups_keys gs _ v rfl hgs)
    exact main l [] (by simp)

/-- C6 witness: a three-record list with two groups is partitioned without
drops or duplicates, and its first record lies in the group keyed `a`. -/
theorem groupVariablesByPrefix_partition_witness :
    ((((groupVariablesByPrefix [namedRecord "a/1", namedRecord "b/1", namedRecord "a/2"]).map
        Prod.snd).flatten).Perm [namedRecord "a/1", namedRecord "b/1", namedRecord "a/2"]) ∧
    groupKey (namedRecord "a/1").name = "a" :=
  ⟨(groupVariablesByPrefix_partition [namedRecord "a/1", namedRecord "b/1",
      namedRecord "a/2"]).1,
    (groupVariablesByPrefix_partition [namedRecord "a/1", namedRecord "b/1",
      namedRecord "a/2"]).2 "a" [namedRecord "a/1", namedRecord "a/2"] (by decide)
      (namedRecord "a/1") (by decide)⟩

/-- Character comparison is `lt` exactly when the case-insensitive keys are
ordered. -/
theorem charCmp_lt_iff (x y : Char) : charCmp x y = .lt ↔ charKey x < charKey y := by
  unfold charCmp
  split_ifs with h1 h2 <;> simp [h1]

/-- Character comparison is `eq` exactly when the case-insensitive keys are
equal. -/
theorem charCmp_eq_iff (x y : Char) : charCmp x y = .eq ↔ charKey x = charKey y := by
  unfold charCmp
  split_ifs with h1 h2 <;> simp
  all_goals omega

/-- Swapping the arguments of the character comparison swaps the ordering. -/
theorem charCmp_swap (c d : Char) : charCmp d c = (charCmp c d).swap := by
  unfold charCmp
  rcases Nat.lt_trichotomy (charKey c) (charKey d) with h | h | h
  · simp [h, Nat.lt_asymm h, Ordering.swap]
  · simp [h, Ordering.swap]
  · simp [h, Nat.lt_asymm h, Ordering.swap]

/-- A character equal under the comparison can replace the left argument. -/
theorem charCmp_congr_left (c d : Char) (h : charCmp c d = .eq) (e : Char) :
    charCmp c e = charCmp d e := by
  have hk : charKey c = charKey d := (charCmp_eq_iff c d).mp h
  simp [charCmp, hk]

/-- A character equal under the comparison can replace the right argument. -/
theorem charCmp_congr_right (d e : Char) (h : charCmp d e = .eq) (c : Char) :
    charCmp c e = charCmp c d := by
  have hk : charKey d = charKey e := (charCmp_eq_iff d e).mp h
  simp [charCmp, hk]

/-- Swapping the arguments of the lexicographic comparison swaps the
ordering. -/
theorem lexCmp_swap (x : List Char) : ∀ y, lexCmp y x = (lexCmp x y).swap := by
  induction x with
  | nil => intro y; cases y <;> rfl
  | cons c cs ih =>
    intro y
    cases y with
    | nil => rfl
    | cons d ds =>
      rw [lexCmp, lexCmp, charCmp_swap]
      rcases h : charCmp c d with _ | _ | _ <;> simp [Ordering.swap, ih ds]

/-- A list equal under the lexicographic comparison can replace the left
argument. -/
theorem lexCmp_eq_congr (x : List Char) :
    ∀ y, lexCmp x y = .eq → ∀ z, lexCmp x z = lexCmp y z := by
  induction x with
  | nil =>
    intro y h z
    cases y with
    | nil => rfl
    | cons d ds => exact absurd h (by simp [lexCmp])
  | cons c cs ih =>
    intro y h z
    cases y with
    | nil => exact absurd h (by simp [lexCmp])
    | cons d ds =>
      rw [lexCmp] at h
      rcases hcd : charCmp c d with _ | _ | _
      · rw [hcd] at h; simp at h
      · rw [hcd] at h
        cases z with
        | nil => rfl
        | cons e es =>
          rw [lexCmp, lexCmp, charCmp_congr_left c d hcd e]
          rcases hde : charCmp d e with _ | _ | _ <;> simp [hde, ih ds h es]
      · rw [hcd] at h; simp at h

/-- A list equal under the lexicographic comparison can replace the right
argument. -/
theorem lexCmp_congr_right (x y z : List Char) (h : lexCmp y z = .eq) :
    lexCmp x z = lexCmp x y := by
  have hzy : lexCmp z y = .eq := by rw [lexCmp_swap y z, h]; rfl
  rw [lexCmp_swap z x, lexCmp_swap y x, lexCmp_eq_congr z y hzy x]

/-- Strict lexicographic comparisons compose transitively. -/
theorem lexCmp_lt_trans (x : List Char) :
    ∀ y z, lexCmp x y = .lt → lexCmp y z = .lt → lexCmp x z = .lt := by
  induction x with
  | nil =>
    intro y z h1 h2
    cases y with
    | nil => exact absurd h1 (by simp [lexCmp])
    | cons d ds =>
      cases z with
      | nil => exact absurd h2 (by simp [lexCmp])
      | cons e es => simp [lexCmp]
  | cons c cs ih =>
    intro y z h1 h2
    cases y with
    | nil => exact absurd h1 (by simp [lexCmp])
    | cons d ds =>
      cases z with
      | nil => exact absurd h2 (by simp [lexCmp])
      | cons e es =>
        rw [lexCmp] at h1 h2 ⊢
        rcases hcd : charCmp c d with _ | _ | _
        · rw [hcd] at h1
          rcases hde : charCmp d e with _ | _ | _
          · rw [(charCmp_lt_iff c e).mpr
              (Nat.lt_trans ((charCmp_lt_iff c d).mp hcd) ((charCmp_lt_iff d e).mp hde))]
          · rw [charCmp_congr_right d e hde c, hcd]
          · rw [hde] at h2; simp at h2
        · rw [hcd] at h1
          simp at h1
          rcases hde : charCmp d e with _ | _ | _
          · rw [charCmp_congr_left c d hcd e, hde]
          · rw [hde] at h2
            simp at h2
            rw [charCmp_congr_left c d hcd e, hde]
            simpa using ih ds es h1 h2
          · rw [hde] at h2; simp at h2
        · rw [hcd] at h1; simp at h1

/-- Non-strict lexicographic comparisons compose transitively. -/
theorem lexCmp_le_trans (x y z : List Char) (h1 : lexCmp x y ≠ .gt)
    (h2 : lexCmp y z ≠ .gt) : lexCmp x z ≠ .gt := by
  rcases hxy : lexCmp x y with _ | _ | _
  · rcases hyz : lexCmp y z with _ | _ | _
    · rw [lexCmp_lt_trans x y z hxy hyz]; decide
    · rw [lexCmp_congr_right x y z hyz, hxy]; decide
    · exact absurd hyz h2
  · rcases hyz : lexCmp y z with _ | _ | _
    · rw [lexCmp_eq_congr x y hxy z, hyz]; decide
    · rw [lexCmp_eq_congr x y hxy z, hyz]; decide
    · exact absurd hyz h2
  · exact absurd hxy h1

/-- Swapping the arguments of the record comparator swaps the ordering. -/
theorem sortCompare_swap (a b : VariableData) : sortCompare b a = (sortCompare a b).swap := by
  unfold sortCompare ciCompare
  rw [lexCmp_swap (sortPrefixOf a.name).data (sortPrefixOf b.name).data]
  rcases h : lexCmp (sortPrefixOf a.name).data (sortPrefixOf b.name).data with _ | _ | _ <;>
    simp [Ordering.swap, lexCmp_swap a.name.data b.name.data]

/-- The record comparator is total: some argument order is not `gt`. -/
theorem sortCompare_total (a b : VariableData) :
    sortCompare a b ≠ .gt ∨ sortCompare b a ≠ .gt := by
  rcases h : sortCompare a b with _ | _ | _
  · left; simp
  · left; simp
  · right; rw [sortCompare_swap, h]; decide

/-- The non-strict record comparator is transitive. -/
theorem sortCompare_le_trans (a b c : VariableData) (h1 : sortCompare a b ≠ .gt)
    (h2 : sortCompare b c ≠ .gt) : sortCompare a c ≠ .gt := by
  unfold sortCompare ciCompare at h1 h2 ⊢
  rcases hab : lexCmp (sortPrefixOf a.name).data (sortPrefixOf b.name).data with _ | _ | _
  · rcases hbc : lexCmp (sortPrefixOf b.name).data (sortPrefixOf c.name).data with _ | _ | _
    · rw [lexCmp_lt_trans _ _ _ hab hbc]; simp
    · rw [lexCmp_congr_right _ _ _ hbc, hab]; simp
    · rw [hbc] at h2; simp at h2
  · rw [hab] at h1
    simp at h1
    rcases hbc : lexCmp (sortPrefixOf b.name).data (sortPrefixOf c.name).data with _ | _ | _
    · rw [lexCmp_eq_congr _ _ hab _, hbc]; simp
    · rw [hbc] at h2
      simp at h2
      rw [lexCmp_eq_congr _ _ hab _, hbc]
      simpa using lexCmp_le_trans a.name.data b.name.data c.name.data h1 h2
    · rw [hbc] at h2; simp at h2
  · rw [hab] at h1; simp at h1

/-- C7: the sorter's comparator orders records by the case-insensitive first
name segment and then by the case-insensitive full name, forming a total
preorder (swap-antisymmetric, total, transitive), and sorting the names
`b/x`, `a/z`, `a/a` yields `a/a`, `a/z`, `b/x`. -/
theorem sortVariablesByPrefixAndName_spec :
    ((sortVariablesByPrefixAndName
        [namedRecord "b/x", namedRecord "a/z", namedRecord "a/a"]).map VariableData.name
      = ["a/a", "a/z", "b/x"]) ∧
    (∀ a b : VariableData, sortCompare b a = (sortCompare a b).swap) ∧
    (∀ a b : VariableData, sortCompare a b ≠ .gt ∨ sortCompare b a ≠ .gt) ∧
    (∀ a b c : VariableData,
      sortCompare a b ≠ .gt → sortCompare b c ≠ .gt → sortCompare a c ≠ .gt) :=
  ⟨by decide, sortCompare_swap, sortCompare_total, sortCompare_le_trans⟩

/-- C7 witness: the sorted example, and transitivity applied to the concrete
records `a/a ≤ a/z ≤ b/x`. -/
theorem sortVariablesByPrefixAndName_spec_witness :
    ((sortVariablesByPrefixAndName
        [namedRecord "b/x", namedRecord "a/z", namedRecord "a/a"]).map VariableData.name
      = ["a/a", "a/z", "b/x"]) ∧
    sortCompare (namedRecord "a/a") (namedRecord "b/x") ≠ .gt :=
  ⟨sortVariablesByPrefixAndName_spec.1,
    sortVariablesByPrefixAndName_spec.2.2.2 (namedRecord "a/a") (namedRecord "a/z")
      (namedRecord "b/x") (by decide) (by decide)⟩

end Variably
